import Mathlib

/-!
Shallow embedding of `immobiscraper.py` (class `Immobiliare`), the single
source file of the immobiscraper repository.

Modelling conventions:
* Python's dynamically typed field values are modelled by `PyVal`
  (None / int / str / float), with Python floats idealized as `PyFloat`
  (either NaN or an exact rational).  `round(x, 1)` is modelled as exact
  rational rounding with ties to even, matching Python's float `round` on
  the values arising in the claims.
* `re.search` with the concrete patterns used by the source is modelled by
  a backtracking matcher over a small pattern language (`Tok`, `Item`,
  `Pat`) that covers exactly the constructs those patterns use: literal
  characters, `\d`, `\D`, `\S`, `.`, bounded repetition `{m,n}` and `+`,
  and a single capture group.  Greedy repetition with backtracking and
  leftmost-search are implemented as in Python's `re`.
* `str.lower()` is modelled as a per-character ASCII lowering
  (`Char.toLower`), adequate for the ASCII/`è` texts in play.
* `x in t` (substring test) is modelled by `hasSub`.
* The HTTP/BeautifulSoup boundary is modelled as a function from URLs to
  already-normalized page text (`fetch : String → Option String`, `none`
  meaning a timeout, which `_get_page`/`_get_text` turn into empty text),
  and for discovery as `site : Nat → Page` giving each result page's
  normalized text and the `href` attributes of its `<a>` tags.
* `logging.info` calls (`_say`) are modelled as a list of `LogEvent`s,
  one constructor per `_say` call site of `_get_data`.
-/

namespace Immobiscraper

/-- Idealized Python float: NaN or an exact rational value. -/
inductive PyFloat where
  | nan : PyFloat
  | val (q : ℚ) : PyFloat
deriving DecidableEq, Repr

/-- A dynamically-typed Python value as stored in the fields of the
`House` namedtuple: `None`, an `int`, a `str`, or a `float`. -/
inductive PyVal where
  | none : PyVal
  | int (n : Int) : PyVal
  | str (s : String) : PyVal
  | pfloat (f : PyFloat) : PyVal
deriving DecidableEq, Repr

/-- The constructor parameters of `Immobiliare.__init__` that matter to
extraction and discovery, with the types of the Python signature
(`price_not_found: float = float('nan')`, the other sentinels `int`,
`energy_not_found: str`). -/
structure CrawlConfig where
  min_house_cost : Int := 100
  browse_all_pages : Bool := true
  area_not_found : Int := 0
  price_not_found : PyFloat := PyFloat.nan
  floor_not_found : Int := 0
  car_not_found : Int := 0
  energy_not_found : String := "n/a"
  invalid_price_per_area : Int := 0
deriving DecidableEq, Repr

/-- One `LogEvent` constructor per `self._say(...)` call site of
`_get_data` (plus the timeout message of `_get_page`):
`"Too low house price: {int(cost)} for {sub_url}"`,
`"Price available upon request for {sub_url}"`,
`"Can't get price for {sub_url}"`,
`"Energy efficiency still pending for {sub_url}"`,
`"Can't get energy efficiency from {sub_url}"`,
`"Car spot/box available upon request for {sub_url}"`,
`"Timeout while trying to reach {url}"`. -/
inductive LogEvent where
  | priceTooLow (n : Nat) (url : String)
  | priceOnRequest (url : String)
  | priceNotFound (url : String)
  | energyPending (url : String)
  | energyNotFound (url : String)
  | carOnRequest (url : String)
  | timeout (url : String)
deriving DecidableEq, Repr

/-- Single-character regex atoms used by the source's patterns:
a literal character, `\d`, `\D`, `\S`, `.`. -/
inductive Tok where
  | ch (c : Char)
  | digit
  | nondigit
  | nonspace
  | dot
deriving DecidableEq, Repr

/-- Which characters a `Tok` matches (Python `re` semantics restricted to
the texts in play: `\d` = ASCII digit, `\S` = non-whitespace, `.` = any
character except newline). -/
def Tok.matchesChar : Tok → Char → Bool
  | .ch c, d => c = d
  | .digit, d => d.isDigit
  | .nondigit, d => !d.isDigit
  | .nonspace, d => !d.isWhitespace
  | .dot, d => d ≠ '\n'

/-- A pattern element: a single atom, or a greedy repetition
`t{lo,hi}` (`hi = none` meaning unbounded, so `\d+` is `rep .digit 1 none`). -/
inductive Item where
  | tok (t : Tok)
  | rep (t : Tok) (lo : Nat) (hi : Option Nat)
deriving DecidableEq, Repr

/-- Match exactly `lo` further occurrences of `t`, then continue with `k`. -/
def matchLo (t : Tok) (lo : Nat) (s : List Char) (k : List Char → Option (List Char)) :
    Option (List Char) :=
  match lo, s with
  | 0, _ => k s
  | _+1, [] => Option.none
  | l+1, c :: rest => if t.matchesChar c then matchLo t l rest k else Option.none

/-- Greedily match up to `ex` (none = unboundedly many) further occurrences
of `t`, preferring longer matches, backtracking into `k`. -/
def matchExtra (t : Tok) (ex : Option Nat) (s : List Char)
    (k : List Char → Option (List Char)) : Option (List Char) :=
  if ex = Option.some 0 then k s
  else
    match s with
    | [] => k []
    | c :: rest =>
      if t.matchesChar c then
        match matchExtra t (ex.map fun n => n - 1) rest k with
        | Option.some r => Option.some r
        | Option.none => k (c :: rest)
      else k (c :: rest)

/-- Match one pattern element at the front of `s`, continuing with `k`. -/
def matchItem (it : Item) (s : List Char) (k : List Char → Option (List Char)) :
    Option (List Char) :=
  match it with
  | .tok t =>
    match s with
    | [] => Option.none
    | c :: rest => if t.matchesChar c then k rest else Option.none
  | .rep t lo hi => matchLo t lo s (fun s1 => matchExtra t (hi.map fun n => n - lo) s1 k)

/-- Match a sequence of pattern elements at the front of `s`,
continuing with `k` (backtracking threaded through the continuation). -/
def matchItems (its : List Item) (s : List Char) (k : List Char → Option (List Char)) :
    Option (List Char) :=
  match its with
  | [] => k s
  | it :: rest => matchItem it s (fun s1 => matchItems rest s1 k)

/-- A source pattern `pre (grp) post` with a single capture group. -/
structure Pat where
  pre : List Item
  grp : List Item
  post : List Item
deriving Repr

/-- Literal pattern elements for a literal fragment of a source regex. -/
def lits (s : String) : List Item := s.toList.map (fun c => Item.tok (Tok.ch c))

/-- Try to match pattern `p` anchored at the start of `s`; on success return
the text captured by the group (the characters the group consumed). -/
def matchPatAt (p : Pat) (s : List Char) : Option (List Char) :=
  matchItems p.pre s (fun s1 =>
    matchItems p.grp s1 (fun s2 =>
      matchItems p.post s2 (fun _ =>
        Option.some (s1.take (s1.length - s2.length)))))

/-- `re.search(p, s).group(1)`: try the pattern at each position, leftmost
first, returning the first successful match's captured group. -/
def reSearch (p : Pat) (s : List Char) : Option (List Char) :=
  match s with
  | [] => matchPatAt p []
  | _ :: rest =>
    match matchPatAt p s with
    | Option.some g => Option.some g
    | Option.none => reSearch p rest

/-- Python substring test `pat in t`. -/
def hasSub (pat : List Char) (t : List Char) : Bool :=
  match t with
  | [] => pat.isEmpty
  | c :: rest => pat.isPrefixOf (c :: rest) || hasSub pat rest

/-- `Immobiliare._extract_pattern`: return the group of the first pattern in
the list that matches anywhere in the text, else `None`. -/
def extract_pattern (pats : List Pat) (t : List Char) : Option (List Char) :=
  match pats with
  | [] => Option.none
  | p :: ps =>
    match reSearch p t with
    | Option.some g => Option.some g
    | Option.none => extract_pattern ps t

/-- Value of a digit string as a natural number (the behaviour of Python's
`int(...)` on the all-digit strings produced by the extraction patterns). -/
def digitsToNat (s : List Char) : Nat :=
  s.foldl (fun a c => a * 10 + (c.toNat - 48)) 0

/-- Python `int(s)` for a string, restricted to the string shapes that occur
here: succeeds exactly on non-empty all-digit strings (`int("n/a")` and
`int("")` raise). -/
def pyStrToInt (s : List Char) : Option Int :=
  if s ≠ [] && s.all Char.isDigit then Option.some (digitsToNat s : Int) else Option.none

/-- Truncation of a rational toward zero (Python `int(float)`). -/
def ratTrunc (q : ℚ) : Int :=
  if q.num < 0 then -(Rat.floor (-q)) else Rat.floor q

/-- Python `int(x)` on a field value: raises (`Option.none`) on `None` and
NaN, truncates floats, parses digit strings. -/
def pyToInt : PyVal → Option Int
  | PyVal.none => Option.none
  | PyVal.int n => Option.some n
  | PyVal.str s => pyStrToInt s.toList
  | PyVal.pfloat PyFloat.nan => Option.none
  | PyVal.pfloat (PyFloat.val q) => Option.some (ratTrunc q)

/-- Nearest integer with ties to even (Python `round` on exact values). -/
def roundHalfEven (q : ℚ) : Int :=
  let n := Rat.floor q
  let f := q - (n : ℚ)
  if f < 1/2 then n
  else if 1/2 < f then n + 1
  else if n % 2 = 0 then n else n + 1

/-- Python `round(x, 1)` on exact rational values. -/
def ratRound1 (q : ℚ) : ℚ := (roundHalfEven (10 * q) : ℚ) / 10

/-- Nearest integer to `n / d` with ties to even, for `d > 0`, computed with
integer arithmetic (`f` is the floor of `n / d` and `r` its remainder, so
`n / d` is below, above, or exactly at the half point as `2 * r` compares
with `d`).  `roundHalfEvenInt_eq` below proves it agrees with
`roundHalfEven`. -/
def roundHalfEvenInt (n d : Int) : Int :=
  let f := n / d
  let r := n % d
  if 2 * r < d then f
  else if d < 2 * r then f + 1
  else if f % 2 = 0 then f else f + 1

/-- Python `round(c / a, 1)` for integers `c`, `a` with `a ≠ 0`, computed
with integer arithmetic (negative `a` is reduced to the positive case via
`c / a = -c / -a`).  `pyRound1Div_eq` below proves it equals
`ratRound1 (c / a)`. -/
def pyRound1Div (c a : Int) : ℚ :=
  if a < 0 then Rat.divInt (roundHalfEvenInt (10 * -c) (-a)) 10
  else Rat.divInt (roundHalfEvenInt (10 * c) a) 10

/-- The cost patterns of `_get_data`:
`"€ (\d+\.\d+\.\d+)"` then `"€ (\d+\.\d+)"`, tried in this order. -/
def costPats : List Pat :=
  [⟨lits "€ ",
    [Item.rep Tok.digit 1 Option.none, Item.tok (Tok.ch '.'),
     Item.rep Tok.digit 1 Option.none, Item.tok (Tok.ch '.'),
     Item.rep Tok.digit 1 Option.none], []⟩,
   ⟨lits "€ ",
    [Item.rep Tok.digit 1 Option.none, Item.tok (Tok.ch '.'),
     Item.rep Tok.digit 1 Option.none], []⟩]

/-- The floor patterns of `_get_data`:
`"piano (\d{1,2})"`, `"(\d{1,2}) piano"`, `"(\d{1,2}) piani"`. -/
def floorPats : List Pat :=
  [⟨lits "piano ", [Item.rep Tok.digit 1 (Option.some 2)], []⟩,
   ⟨[], [Item.rep Tok.digit 1 (Option.some 2)], lits " piano"⟩,
   ⟨[], [Item.rep Tok.digit 1 (Option.some 2)], lits " piani"⟩]

/-- The area pattern of `_get_data`: `"superficie (\d{1,4}) m"`. -/
def areaPat : Pat :=
  ⟨lits "superficie ", [Item.rep Tok.digit 1 (Option.some 4)], lits " m"⟩

/-- The energy patterns of `_get_data`:
`"energetica (\D{1,2}) "` then `"energetica(\S{1,2})"`. -/
def energyPats : List Pat :=
  [⟨lits "energetica ", [Item.rep Tok.nondigit 1 (Option.some 2)], lits " "⟩,
   ⟨lits "energetica", [Item.rep Tok.nonspace 1 (Option.some 2)], []⟩]

/-- The parking pattern of `_get_data`: `"post\S auto (\d{1,2})"`. -/
def carPats : List Pat :=
  [⟨lits "post" ++ [Item.tok Tok.nonspace] ++ lits " auto ",
    [Item.rep Tok.digit 1 (Option.some 2)], []⟩]

/-- The parking fallback pattern `"possibilit\S.{0,10}auto"` (no group:
the whole pattern is placed in the group, only `isSome` is used). -/
def possAutoPat : Pat :=
  ⟨[], lits "possibilit" ++ [Item.tok Tok.nonspace, Item.rep Tok.dot 0 (Option.some 10)]
        ++ lits "auto", []⟩

/-- The `House` namedtuple of `_get_data`, with its exact field names. -/
structure House where
  cost : PyVal
  price_per_area : PyVal
  floor : PyVal
  area : PyVal
  ultimo : Bool
  url : String
  energy : PyVal
  posto_auto : PyVal
deriving DecidableEq, Repr

/-- The cost block of `_get_data`: match the cost patterns; on a match,
strip `.` separators, and if the integer value is below `min_house_cost`
log `"Too low house price: ..."` and set the cost to `None`, otherwise keep
the stripped digit string; on no match use the `price_not_found` sentinel,
logging `"Price available upon request ..."` when the text contains
`"prezzo su richiesta"` and `"Can't get price ..."` otherwise. -/
def costOf (cfg : CrawlConfig) (t : List Char) (sub_url : String) :
    PyVal × List LogEvent :=
  match extract_pattern costPats t with
  | Option.some c =>
    let stripped := c.filter (fun ch => ch ≠ '.')
    let n := digitsToNat stripped
    if (n : Int) < cfg.min_house_cost then
      (PyVal.none, [LogEvent.priceTooLow n sub_url])
    else
      (PyVal.str (String.mk stripped), [])
  | Option.none =>
    if hasSub "prezzo su richiesta".toList t then
      (PyVal.pfloat cfg.price_not_found, [LogEvent.priceOnRequest sub_url])
    else
      (PyVal.pfloat cfg.price_not_found, [LogEvent.priceNotFound sub_url])

/-- The floor block of `_get_data`: the first floor pattern's capture (a
digit string) or `None`; then, if the text contains `"piano terra"`, the
floor is overridden to the integer `1`. -/
def floorOf (t : List Char) : PyVal :=
  let floor0 : PyVal :=
    match extract_pattern floorPats t with
    | Option.some f => PyVal.str (String.mk f)
    | Option.none => PyVal.none
  if hasSub "piano terra".toList t then PyVal.int 1 else floor0

/-- The area block of `_get_data`: the area pattern's capture (a digit
string) or the `area_not_found` sentinel. -/
def areaOf (cfg : CrawlConfig) (t : List Char) : PyVal :=
  match extract_pattern [areaPat] t with
  | Option.some a => PyVal.str (String.mk a)
  | Option.none => PyVal.int cfg.area_not_found

/-- The acceptance test of the energy block:
`energy and energy[0] in "ABCDEF" and energy[-1] in "0123456789+"`. -/
def energyAccept (e : List Char) : Bool :=
  match e.head?, e.getLast? with
  | Option.some c0, Option.some c1 =>
    "ABCDEF".toList.contains c0 && "0123456789+".toList.contains c1
  | _, _ => false

/-- The energy block of `_get_data`: match the energy patterns; accept the
candidate only if `energyAccept` holds, upper-casing it; otherwise use the
`energy_not_found` sentinel, logging the pending-certification message when
the text contains `"in attesa di certificazione"` and the failure message
otherwise. -/
def energyOf (cfg : CrawlConfig) (t : List Char) (sub_url : String) :
    PyVal × List LogEvent :=
  match extract_pattern energyPats t with
  | Option.some e =>
    if energyAccept e then
      (PyVal.str (String.mk (e.map Char.toUpper)), [])
    else if hasSub "in attesa di certificazione".toList t then
      (PyVal.str cfg.energy_not_found, [LogEvent.energyPending sub_url])
    else
      (PyVal.str cfg.energy_not_found, [LogEvent.energyNotFound sub_url])
  | Option.none =>
    if hasSub "in attesa di certificazione".toList t then
      (PyVal.str cfg.energy_not_found, [LogEvent.energyPending sub_url])
    else
      (PyVal.str cfg.energy_not_found, [LogEvent.energyNotFound sub_url])

/-- The parking block of `_get_data`: the parking pattern's capture (a
digit string); else the integer `0` with a log when
`possibilit\S.{0,10}auto` matches; else the `car_not_found` sentinel. -/
def carOf (cfg : CrawlConfig) (t : List Char) (sub_url : String) :
    PyVal × List LogEvent :=
  match extract_pattern carPats t with
  | Option.some c => (PyVal.str (String.mk c), [])
  | Option.none =>
    if (reSearch possAutoPat t).isSome then
      (PyVal.int 0, [LogEvent.carOnRequest sub_url])
    else
      (PyVal.int cfg.car_not_found, [])

/-- The price-per-area block of `_get_data`:
`try: price_per_area = round(int(cost) / int(area), 1) except: ...sentinel`.
The `try` succeeds exactly when both `int(...)` conversions succeed and the
area integer is nonzero. -/
def ppaOf (cfg : CrawlConfig) (cost area : PyVal) : PyVal :=
  match pyToInt cost, pyToInt area with
  | Option.some c, Option.some a =>
    if a = 0 then PyVal.int cfg.invalid_price_per_area
    else PyVal.pfloat (PyFloat.val (pyRound1Div c a))
  | _, _ => PyVal.int cfg.invalid_price_per_area

/-- `Immobiliare._get_data`: lower-case the page text, run the per-field
blocks in source order, and pack the `House` namedtuple; the second
component collects the `_say` log events in emission order. -/
def get_data (cfg : CrawlConfig) (pageText : String) (sub_url : String) :
    House × List LogEvent :=
  let t := pageText.toList.map Char.toLower
  let c := costOf cfg t sub_url
  let floor := floorOf t
  let ultimo := hasSub "ultimo".toList t
  let area := areaOf cfg t
  let en := energyOf cfg t sub_url
  let car := carOf cfg t sub_url
  let ppa := ppaOf cfg c.1 area
  (⟨c.1, ppa, floor, area, ultimo, sub_url, en.1, car.1⟩, c.2 ++ en.2 ++ car.2)

/-- `_get_page` composed with `_get_text` at the collaborator boundary:
a fetch outcome is `none` on timeout, in which case the returned
`BytesIO()` is empty and the extracted text is `""`. -/
def pageTextOf (fetch : String → Option String) (url : String) : String :=
  match fetch url with
  | Option.some t => t
  | Option.none => ""

/-- One result page at the discovery boundary: its normalized text and the
`href` attributes of its `<a>` tags (`link.get("href")` may be `None`). -/
structure Page where
  text : String
  links : List (Option String)

/-- `re.compile(r"\d+/$").search(l)`: `l` ends with at least one digit
followed by a final `/`. -/
def endsDigitSlash (l : String) : Bool :=
  match l.toList.reverse with
  | '/' :: c :: _ => c.isDigit
  | _ => false

/-- The link filter of `get_all_urls`:
`l and "https" in l and "annunci" in l and pattern.search(l)`. -/
def linkFilter (l : String) : Bool :=
  hasSub "https".toList l.toList && hasSub "annunci".toList l.toList && endsDigitSlash l

/-- The candidate URLs collected from one result page's `<a>` tags. -/
def pageLinks (p : Page) : List String :=
  p.links.filterMap fun h =>
    match h with
    | Option.some l => if linkFilter l then Option.some l else Option.none
    | Option.none => Option.none

/-- The pagination stop test of `get_all_urls`:
`"404 not found" in t or "non è presente" in t`. -/
def stopPhrase (t : List Char) : Bool :=
  hasSub "404 not found".toList t || hasSub "non è presente".toList t

/-- Whether the loop stops at result page `i` (the page's text is fetched
and lower-cased before the test). -/
def stopAt (site : Nat → Page) (i : Nat) : Bool :=
  stopPhrase ((site i).text.toList.map Char.toLower)

/-- The `for i in range(2, 10_000)` loop of `get_all_urls`, with `fuel`
iterations remaining and current page number `i`: returns the collected
candidate URLs and the list of result-page numbers fetched (each page the
loop visits is fetched, whether or not it stops the loop). -/
def browseFrom (site : Nat → Page) (fuel : Nat) (i : Nat) : List String × List Nat :=
  match fuel with
  | 0 => ([], [])
  | f+1 =>
    if stopAt site i then ([], [i])
    else
      let r := browseFrom site f (i + 1)
      (pageLinks (site i) ++ r.1, i :: r.2)

/-- `Immobiliare.get_all_urls`: collect page 1's candidate links, then, if
`browse_all_pages`, run the pagination loop over pages `2, …, 9999`
(`range(2, 10_000)` is 9998 iterations).  Returns the collected URLs and
the list of result-page numbers fetched. -/
def get_all_urls (cfg : CrawlConfig) (site : Nat → Page) : List String × List Nat :=
  let firstLinks := pageLinks (site 1)
  if cfg.browse_all_pages then
    let r := browseFrom site 9998 2
    (firstLinks ++ r.1, 1 :: r.2)
  else
    (firstLinks, [1])

/-- The candidate URLs of `n` consecutive result pages starting at page `i`. -/
def pagesUrls (site : Nat → Page) (i : Nat) (n : Nat) : List String :=
  match n with
  | 0 => []
  | m+1 => pageLinks (site i) ++ pagesUrls site (i + 1) m

/-- The page numbers `i, i+1, …, i+n-1`. -/
def pagesIdx (i : Nat) (n : Nat) : List Nat :=
  match n with
  | 0 => []
  | m+1 => i :: pagesIdx (i + 1) m

/-- `Immobiliare.find_all_houses`: map `_get_data` over the discovered
URLs (`executor.map` preserves input order and yields one result per
input), keeping each record. -/
def find_all_houses (cfg : CrawlConfig) (fetch : String → Option String)
    (urls : List String) : List House :=
  urls.map fun u => (get_data cfg (pageTextOf fetch u) u).1

/-- The configuration built from the default parameter values of
`Immobiliare.__init__`. -/
def defaultCfg : CrawlConfig := {}

/-- A concrete site whose result page 4 carries the page-not-present
phrase; every other page has one matching candidate link. -/
def site4 : Nat → Page := fun j =>
  if j = 4 then ⟨"non è presente", []⟩
  else ⟨"pagina", [Option.some "https://a/annunci/9/"]⟩

/-- A concrete site whose first page carrying a termination phrase is page
10001, past the crawler's page ceiling; every other page has one matching
candidate link. -/
def cexSite : Nat → Page := fun j =>
  if j = 10001 then ⟨"non è presente", []⟩
  else ⟨"pagina", [Option.some "https://a/annunci/9/"]⟩

/-! ## Helper lemmas -/

theorem get_data_cost (cfg : CrawlConfig) (text url : String) :
    (get_data cfg text url).1.cost = (costOf cfg (text.toList.map Char.toLower) url).1 := rfl

theorem get_data_floor (cfg : CrawlConfig) (text url : String) :
    (get_data cfg text url).1.floor = floorOf (text.toList.map Char.toLower) := rfl

theorem get_data_area (cfg : CrawlConfig) (text url : String) :
    (get_data cfg text url).1.area = areaOf cfg (text.toList.map Char.toLower) := rfl

theorem get_data_energy (cfg : CrawlConfig) (text url : String) :
    (get_data cfg text url).1.energy = (energyOf cfg (text.toList.map Char.toLower) url).1 := rfl

theorem get_data_car (cfg : CrawlConfig) (text url : String) :
    (get_data cfg text url).1.posto_auto = (carOf cfg (text.toList.map Char.toLower) url).1 := rfl

theorem get_data_ppa (cfg : CrawlConfig) (text url : String) :
    (get_data cfg text url).1.price_per_area =
      ppaOf cfg (costOf cfg (text.toList.map Char.toLower) url).1
        (areaOf cfg (text.toList.map Char.toLower)) := rfl

theorem get_data_url (cfg : CrawlConfig) (text url : String) :
    (get_data cfg text url).1.url = url := rfl

theorem get_data_ultimo (cfg : CrawlConfig) (text url : String) :
    (get_data cfg text url).1.ultimo =
      hasSub "ultimo".toList (text.toList.map Char.toLower) := rfl

theorem get_data_logs (cfg : CrawlConfig) (text url : String) :
    (get_data cfg text url).2 =
      (costOf cfg (text.toList.map Char.toLower) url).2 ++
      (energyOf cfg (text.toList.map Char.toLower) url).2 ++
      (carOf cfg (text.toList.map Char.toLower) url).2 := rfl

theorem areaOf_ne_none (cfg : CrawlConfig) (t : List Char) : areaOf cfg t ≠ PyVal.none := by
  unfold areaOf
  split <;> simp

theorem energyOf_ne_none (cfg : CrawlConfig) (t : List Char) (u : String) :
    (energyOf cfg t u).1 ≠ PyVal.none := by
  unfold energyOf
  split <;> split_ifs <;> simp

theorem carOf_ne_none (cfg : CrawlConfig) (t : List Char) (u : String) :
    (carOf cfg t u).1 ≠ PyVal.none := by
  unfold carOf
  split
  · simp
  · split_ifs <;> simp

theorem ppaOf_ne_none (cfg : CrawlConfig) (c a : PyVal) : ppaOf cfg c a ≠ PyVal.none := by
  unfold ppaOf
  split
  · split_ifs <;> simp
  · simp

theorem costOf_eq_some (cfg : CrawlConfig) (t : List Char) (u : String) (c : List Char)
    (h : extract_pattern costPats t = Option.some c) :
    costOf cfg t u =
      if (digitsToNat (c.filter fun ch => ch ≠ '.') : Int) < cfg.min_house_cost then
        (PyVal.none, [LogEvent.priceTooLow (digitsToNat (c.filter fun ch => ch ≠ '.')) u])
      else (PyVal.str (String.mk (c.filter fun ch => ch ≠ '.')), []) := by
  unfold costOf
  rw [h]

theorem costOf_eq_none (cfg : CrawlConfig) (t : List Char) (u : String)
    (h : extract_pattern costPats t = Option.none) :
    costOf cfg t u =
      if hasSub "prezzo su richiesta".toList t then
        (PyVal.pfloat cfg.price_not_found, [LogEvent.priceOnRequest u])
      else
        (PyVal.pfloat cfg.price_not_found, [LogEvent.priceNotFound u]) := by
  unfold costOf
  rw [h]

theorem costOf_none_iff (cfg : CrawlConfig) (t : List Char) (u : String) :
    (costOf cfg t u).1 = PyVal.none ↔
      ∃ s, extract_pattern costPats t = Option.some s ∧
        (digitsToNat (s.filter fun ch => ch ≠ '.') : Int) < cfg.min_house_cost := by
  cases h : extract_pattern costPats t with
  | none =>
    rw [costOf_eq_none cfg t u h]
    split_ifs <;> simp
  | some c =>
    rw [costOf_eq_some cfg t u c h]
    split_ifs with hlt
    · simpa using hlt
    · simpa using hlt

theorem floorOf_eq_ground (t : List Char) (hp : hasSub "piano terra".toList t = true) :
    floorOf t = PyVal.int 1 := by
  simp only [floorOf]
  split_ifs
  · rfl

theorem floorOf_eq_of_not_ground (t : List Char)
    (hp : hasSub "piano terra".toList t = false) :
    floorOf t =
      (match extract_pattern floorPats t with
       | Option.some f => PyVal.str (String.mk f)
       | Option.none => PyVal.none) := by
  simp only [floorOf]
  split_ifs with h
  · rw [hp] at h
    exact Bool.noConfusion h
  · rfl

theorem floorOf_none_iff (t : List Char) :
    floorOf t = PyVal.none ↔
      extract_pattern floorPats t = Option.none ∧
        hasSub "piano terra".toList t = false := by
  cases hp : hasSub "piano terra".toList t with
  | true =>
    rw [floorOf_eq_ground t hp]
    simp
  | false =>
    rw [floorOf_eq_of_not_ground t hp]
    cases h : extract_pattern floorPats t <;> simp [h]

/-- Each call of `energyOf` logs nothing, only the pending-certification
message, or only the failure message. -/
theorem energyOf_logs (cfg : CrawlConfig) (t : List Char) (u : String) :
    (energyOf cfg t u).2 = [] ∨ (energyOf cfg t u).2 = [LogEvent.energyPending u] ∨
      (energyOf cfg t u).2 = [LogEvent.energyNotFound u] := by
  unfold energyOf
  split <;> split_ifs <;> simp

/-- Each call of `carOf` logs nothing or only the on-request message. -/
theorem carOf_logs (cfg : CrawlConfig) (t : List Char) (u : String) :
    (carOf cfg t u).2 = [] ∨ (carOf cfg t u).2 = [LogEvent.carOnRequest u] := by
  unfold carOf
  split
  · simp
  · split_ifs <;> simp

theorem pagesIdx_mem (i n j : Nat) : j ∈ pagesIdx i n ↔ i ≤ j ∧ j < i + n := by
  induction n generalizing i with
  | zero =>
    simp only [pagesIdx, List.not_mem_nil, false_iff]
    omega
  | succ m ih =>
    simp only [pagesIdx, List.mem_cons, ih]
    omega

/-- If the loop starting at page `i` first meets a stopping page at `k`
within its fuel, it collects the links of pages `i, …, k-1` and fetches
pages `i, …, k`. -/
theorem browseFrom_stop (site : Nat → Page) (fuel i k : Nat)
    (hik : i ≤ k) (hk : k < i + fuel)
    (hno : ∀ j, i ≤ j → j < k → stopAt site j = false)
    (hstop : stopAt site k = true) :
    browseFrom site fuel i = (pagesUrls site i (k - i), pagesIdx i (k - i + 1)) := by
  induction fuel generalizing i with
  | zero => omega
  | succ f ih =>
    simp only [browseFrom]
    by_cases hi : i = k
    · subst hi
      rw [if_pos hstop]
      simp only [Nat.sub_self]
      rfl
    · have hik2 : i < k := by omega
      have hfalse : stopAt site i = false := hno i le_rfl hik2
      rw [if_neg (by rw [hfalse]; simp)]
      have hrec := ih (i + 1) (by omega) (by omega) (fun j h1 h2 => hno j (by omega) h2)
      rw [hrec]
      have h2 : k - i = (k - (i + 1)) + 1 := by omega
      rw [h2]
      rfl

/-- If no page within the loop's fuel stops it, the loop collects the
links of all `fuel` pages it visits. -/
theorem browseFrom_nostop (site : Nat → Page) (fuel i : Nat)
    (hno : ∀ j, i ≤ j → j < i + fuel → stopAt site j = false) :
    browseFrom site fuel i = (pagesUrls site i fuel, pagesIdx i fuel) := by
  induction fuel generalizing i with
  | zero => rfl
  | succ f ih =>
    simp only [browseFrom]
    rw [if_neg (by rw [hno i le_rfl (by omega)]; simp)]
    rw [ih (i + 1) (fun j h1 h2 => hno j (by omega) (by omega))]
    rfl

/-- The loop fetches at most `fuel` pages, all with numbers in
`[i, i + fuel)`. -/
theorem browseFrom_bound (site : Nat → Page) (fuel i : Nat) :
    (browseFrom site fuel i).2.length ≤ fuel ∧
      ∀ j ∈ (browseFrom site fuel i).2, i ≤ j ∧ j < i + fuel := by
  induction fuel generalizing i with
  | zero => simp [browseFrom]
  | succ f ih =>
    simp only [browseFrom]
    split_ifs with hstop
    · constructor
      · simp
      · intro j hj
        simp only [List.mem_singleton] at hj
        omega
    · have h := ih (i + 1)
      constructor
      · show (i :: (browseFrom site f (i + 1)).2).length ≤ f + 1
        simpa using h.1
      · show ∀ j ∈ i :: (browseFrom site f (i + 1)).2, i ≤ j ∧ j < i + (f + 1)
        intro j hj
        rcases List.mem_cons.mp hj with rfl | hj2
        · omega
        · have := h.2 j hj2
          omega

theorem cexSite_stop (j : Nat) (h : j ≠ 10001) : stopAt cexSite j = false := by
  unfold stopAt cexSite
  rw [if_neg h]
  decide

theorem cexSite_links (j : Nat) (h : j ≠ 10001) :
    pageLinks (cexSite j) = ["https://a/annunci/9/"] := by
  unfold cexSite
  rw [if_neg h]
  decide

theorem cexSite_pagesUrls_len (i n : Nat) (h : i + n ≤ 10001) :
    (pagesUrls cexSite i n).length = n := by
  induction n generalizing i with
  | zero => rfl
  | succ m ih =>
    show (pageLinks (cexSite i) ++ pagesUrls cexSite (i + 1) m).length = m + 1
    rw [List.length_append, cexSite_links i (by omega), ih (i + 1) (by omega)]
    simp only [List.length_singleton]
    omega

/-! ## Claim C4 -/

set_option maxRecDepth 4000 in
/-- C4 (counterexample): the claim quantifies over every `k ≥ 2`; when the
first terminating page is page 10001 (beyond the `range(2, 10_000)`
ceiling), discovery stops after page 9999 and returns the links of pages
1–9999, which is not the links of pages 1 through k−1 = 10000. -/
theorem c4_counterexample :
    defaultCfg.browse_all_pages = true ∧
    (∀ j, 2 ≤ j → j < 10001 → stopAt cexSite j = false) ∧
    stopAt cexSite 10001 = true ∧
    (get_all_urls defaultCfg cexSite).1 ≠ pagesUrls cexSite 1 (10001 - 1) := by
  refine ⟨rfl, fun j h1 h2 => cexSite_stop j (by omega), by decide, ?_⟩
  have hb : defaultCfg.browse_all_pages = true := rfl
  have hget : (get_all_urls defaultCfg cexSite).1 =
      pageLinks (cexSite 1) ++ (browseFrom cexSite 9998 2).1 := by
    simp only [get_all_urls, hb, if_true]
  have hrec := browseFrom_nostop cexSite 9998 2 (fun j h1 h2 => cexSite_stop j (by omega))
  have h0 : (10001 : Nat) - 1 = 10000 := by norm_num
  have h1 : (browseFrom cexSite 9998 2).1 = pagesUrls cexSite 2 9998 := by rw [hrec]
  rw [hget, h1, h0]
  intro heq
  have hl := congrArg List.length heq
  rw [List.length_append, cexSite_links 1 (by omega),
    cexSite_pagesUrls_len 2 9998 (by omega), cexSite_pagesUrls_len 1 10000 (by omega)] at hl
  simp at hl

/-- C4 (amended): for every sequence of result pages whose first page
containing a termination phrase ("404 not found" or "non è presente", in
the lower-cased text) is page `k` with `2 ≤ k ≤ 10000`, discovery with
pagination enabled returns exactly the candidate URLs collected from pages
1 through k−1; page k's own links are never collected and page k+1 is
never fetched.  (For `k > 10000` the `range(2, 10_000)` ceiling truncates
discovery at page 9999 instead.) -/
theorem c4_pagination (cfg : CrawlConfig) (site : Nat → Page) (k : Nat)
    (hb : cfg.browse_all_pages = true)
    (hk2 : 2 ≤ k) (hk1 : k ≤ 10000)
    (hno : ∀ j, 2 ≤ j → j < k → stopAt site j = false)
    (hstop : stopAt site k = true) :
    (get_all_urls cfg site).1 = pagesUrls site 1 (k - 1) ∧
    (k + 1) ∉ (get_all_urls cfg site).2 := by
  simp only [get_all_urls, hb, if_true]
  by_cases hcase : k ≤ 9999
  · have hrec := browseFrom_stop site 9998 2 k hk2 (by omega) hno hstop
    rw [hrec]
    constructor
    · have h3 : k - 1 = (k - 2) + 1 := by omega
      rw [h3]
      rfl
    · intro hmem
      rcases List.mem_cons.mp hmem with h | h
      · omega
      · have := (pagesIdx_mem 2 (k - 2 + 1) (k + 1)).mp h
        omega
  · have hk10000 : k = 10000 := by omega
    subst hk10000
    have hrec := browseFrom_nostop site 9998 2 (fun j h1 h2 => hno j h1 (by omega))
    rw [hrec]
    constructor
    · show pageLinks (site 1) ++ pagesUrls site 2 9998 = pagesUrls site 1 (10000 - 1)
      have h3 : (10000 : Nat) - 1 = 9998 + 1 := by norm_num
      rw [h3]
      rfl
    · intro hmem
      rcases List.mem_cons.mp hmem with h | h
      · omega
      · have := (pagesIdx_mem 2 9998 (10000 + 1)).mp h
        omega

/-- C4 witness: a site whose page 4 carries "non è presente": discovery
returns exactly the links of pages 1–3 and never fetches page 5. -/
theorem c4_witness :
    defaultCfg.browse_all_pages = true ∧
    (∀ j, 2 ≤ j → j < 4 → stopAt site4 j = false) ∧
    stopAt site4 4 = true ∧
    (get_all_urls defaultCfg site4).1 = pagesUrls site4 1 (4 - 1) ∧
    (4 + 1) ∉ (get_all_urls defaultCfg site4).2 := by
  have h1 : ∀ j, 2 ≤ j → j < 4 → stopAt site4 j = false := by
    intro j hj2 hj4
    interval_cases j <;> decide
  exact ⟨rfl, h1, by decide,
    (c4_pagination defaultCfg site4 4 rfl (by omega) (by omega) h1 (by decide)).1,
    (c4_pagination defaultCfg site4 4 rfl (by omega) (by omega) h1 (by decide)).2⟩

/-! ## Claim C8 -/

/-- C8 (confirmed): for every configuration and every site, including one
that paginates endlessly without a termination phrase, discovery fetches
at most 9,999 result pages (page 1 plus the pages of `range(2, 10_000)`,
i.e. pages 2–9999), and the loop always terminates (it is a fold over a
finite range). -/
theorem c8_page_ceiling (cfg : CrawlConfig) (site : Nat → Page) :
    (get_all_urls cfg site).2.length ≤ 9999 ∧
      ∀ j ∈ (get_all_urls cfg site).2, 1 ≤ j ∧ j ≤ 9999 := by
  simp only [get_all_urls]
  split_ifs with hb
  · have h := browseFrom_bound site 9998 2
    constructor
    · show (1 :: (browseFrom site 9998 2).2).length ≤ 9999
      simpa using h.1
    · show ∀ j ∈ 1 :: (browseFrom site 9998 2).2, 1 ≤ j ∧ j ≤ 9999
      intro j hj
      rcases List.mem_cons.mp hj with rfl | hj2
      · omega
      · have := h.2 j hj2
        omega
  · constructor
    · show ([1] : List Nat).length ≤ 9999
      simp
    · show ∀ j ∈ ([1] : List Nat), 1 ≤ j ∧ j ≤ 9999
      intro j hj
      simp only [List.mem_singleton] at hj
      omega

/-- C8 witness: the page bound and page-number bound instantiated at a
concrete site, discharging the membership hypothesis at page 1. -/
theorem c8_witness :
    (get_all_urls defaultCfg site4).2.length ≤ 9999 ∧
    1 ∈ (get_all_urls defaultCfg site4).2 ∧ 1 ≤ 1 ∧ 1 ≤ 9999 :=
  ⟨(c8_page_ceiling defaultCfg site4).1, by decide,
   (c8_page_ceiling defaultCfg site4).2 1 (by decide)⟩

/-! ## Claim C1 -/

/-- C1 (counterexample): the claim says a parsed cost below the configured
minimum resolves the cost field to the price-not-found sentinel, and an
accepted cost field equals the parsed integer.  On `"€ 50.000"` with
`min_house_cost = 100000` the code sets the cost field to Python `None`,
not the sentinel; and on an accepted `"€ 150.000"` the cost field is the
digit *string* `"150000"`, not the integer. -/
theorem c1_counterexample :
    (get_data { defaultCfg with min_house_cost := 100000 } "€ 50.000" "u").1.cost =
      PyVal.none ∧
    PyVal.none ≠
      PyVal.pfloat ({ defaultCfg with min_house_cost := 100000 } : CrawlConfig).price_not_found ∧
    LogEvent.priceTooLow 50000 "u" ∈
      (get_data { defaultCfg with min_house_cost := 100000 } "€ 50.000" "u").2 ∧
    (get_data defaultCfg "€ 150.000" "u").1.cost = PyVal.str "150000" ∧
    PyVal.str "150000" ≠ PyVal.int 150000 := by
  decide

/-- C1 (amended): when a cost pattern matches, the separators are stripped
and the value parsed as an integer; if that integer is below
`min_house_cost` the cost field of the record is Python `None` (not the
sentinel and not the parsed value) and the rejection log is emitted while
neither no-pattern-matched log is; otherwise the cost field is the
separator-stripped digit string. -/
theorem c1_cost_resolution (cfg : CrawlConfig) (text url : String) (s : List Char)
    (h : extract_pattern costPats (text.toList.map Char.toLower) = Option.some s) :
    ((digitsToNat (s.filter fun ch => ch ≠ '.') : Int) < cfg.min_house_cost →
      (get_data cfg text url).1.cost = PyVal.none ∧
      LogEvent.priceTooLow (digitsToNat (s.filter fun ch => ch ≠ '.')) url ∈
        (get_data cfg text url).2 ∧
      LogEvent.priceNotFound url ∉ (get_data cfg text url).2 ∧
      LogEvent.priceOnRequest url ∉ (get_data cfg text url).2) ∧
    (¬ (digitsToNat (s.filter fun ch => ch ≠ '.') : Int) < cfg.min_house_cost →
      (get_data cfg text url).1.cost =
        PyVal.str (String.mk (s.filter fun ch => ch ≠ '.'))) := by
  have hc := costOf_eq_some cfg (text.toList.map Char.toLower) url s h
  constructor
  · intro hlt
    rw [if_pos hlt] at hc
    refine ⟨?_, ?_, ?_, ?_⟩
    · rw [get_data_cost, hc]
    · rw [get_data_logs, hc]
      simp
    · rw [get_data_logs, hc]
      rcases energyOf_logs cfg (text.toList.map Char.toLower) url with he | he | he <;>
        rcases carOf_logs cfg (text.toList.map Char.toLower) url with hca | hca <;>
          rw [he, hca] <;> simp
    · rw [get_data_logs, hc]
      rcases energyOf_logs cfg (text.toList.map Char.toLower) url with he | he | he <;>
        rcases carOf_logs cfg (text.toList.map Char.toLower) url with hca | hca <;>
          rw [he, hca] <;> simp
  · intro hlt
    rw [if_neg hlt] at hc
    rw [get_data_cost, hc]

/-- C1 witness: on `"€ 50.000"` with `min_house_cost = 100000`, the cost
pattern captures `"50.000"`, the parsed 50000 is below the floor, the cost
field is `None`, the rejection log is present and the two not-found logs
are absent. -/
theorem c1_witness :
    extract_pattern costPats ("€ 50.000".toList.map Char.toLower) =
      Option.some "50.000".toList ∧
    (digitsToNat ("50.000".toList.filter fun ch => ch ≠ '.') : Int) <
      ({ defaultCfg with min_house_cost := 100000 } : CrawlConfig).min_house_cost ∧
    ((get_data { defaultCfg with min_house_cost := 100000 } "€ 50.000" "u").1.cost =
        PyVal.none ∧
      LogEvent.priceTooLow (digitsToNat ("50.000".toList.filter fun ch => ch ≠ '.')) "u" ∈
        (get_data { defaultCfg with min_house_cost := 100000 } "€ 50.000" "u").2 ∧
      LogEvent.priceNotFound "u" ∉
        (get_data { defaultCfg with min_house_cost := 100000 } "€ 50.000" "u").2 ∧
      LogEvent.priceOnRequest "u" ∉
        (get_data { defaultCfg with min_house_cost := 100000 } "€ 50.000" "u").2) :=
  ⟨by decide, by decide,
   (c1_cost_resolution { defaultCfg with min_house_cost := 100000 } "€ 50.000" "u"
      "50.000".toList (by decide)).1 (by decide)⟩

/-! ## Claim C2 -/

/-- C2 (counterexample): the claim says every field of the returned record
is non-null, in particular the floor field when no floor pattern matches.
On empty page text (no pattern matches, no ground-floor phrase), the floor
field of the record is Python `None`, not a sentinel. -/
theorem c2_counterexample :
    (get_data defaultCfg "" "u").1.floor = PyVal.none := by decide

/-- C2 (amended): every field of the returned record other than `cost` and
`floor` is never `None` (failures resolve to the caller-configured
sentinels); the `cost` field is `None` exactly when a cost pattern matched
and the parsed value is below `min_house_cost`, and the `floor` field is
`None` exactly when no floor pattern matches and the ground-floor phrase is
absent (the configured `floor_not_found` is never substituted). -/
theorem c2_record_fields (cfg : CrawlConfig) (text url : String) :
    (get_data cfg text url).1.area ≠ PyVal.none ∧
    (get_data cfg text url).1.energy ≠ PyVal.none ∧
    (get_data cfg text url).1.posto_auto ≠ PyVal.none ∧
    (get_data cfg text url).1.price_per_area ≠ PyVal.none ∧
    ((get_data cfg text url).1.cost = PyVal.none ↔
      ∃ s, extract_pattern costPats (text.toList.map Char.toLower) = Option.some s ∧
        (digitsToNat (s.filter fun ch => ch ≠ '.') : Int) < cfg.min_house_cost) ∧
    ((get_data cfg text url).1.floor = PyVal.none ↔
      extract_pattern floorPats (text.toList.map Char.toLower) = Option.none ∧
        hasSub "piano terra".toList (text.toList.map Char.toLower) = false) := by
  refine ⟨?_, ?_, ?_, ?_, ?_, ?_⟩
  · rw [get_data_area]
    exact areaOf_ne_none cfg _
  · rw [get_data_energy]
    exact energyOf_ne_none cfg _ url
  · rw [get_data_car]
    exact carOf_ne_none cfg _ url
  · rw [get_data_ppa]
    exact ppaOf_ne_none cfg _ _
  · rw [get_data_cost]
    exact costOf_none_iff cfg _ url
  · rw [get_data_floor]
    exact floorOf_none_iff _

/-! ## Claim C3 -/

/-- C3 (code bug): the spec says an energy candidate is accepted when its
first character is one of A–F (case-insensitively — the code normalizes
accepted candidates to upper case) and its last character is a digit or
`+`, so `"energetica b+"` should produce `"B+"`.  But `_get_data` matches
on the lower-cased text and then tests `energy[0] in "ABCDEF"` against
upper-case letters, so the candidate `"b+"` is captured and then rejected:
the record carries the energy sentinel and the failure log instead of
`"B+"`, and the `energy.upper()` branch is unreachable.  The `"energetica
z9"` case agrees with the claim (sentinel plus failure log). -/
theorem c3_energy_check_dead :
    extract_pattern energyPats ("classe energetica b+ in zona".toList.map Char.toLower) =
      Option.some "b+".toList ∧
    energyAccept "b+".toList = false ∧
    (get_data defaultCfg "classe energetica b+ in zona" "u").1.energy =
      PyVal.str defaultCfg.energy_not_found ∧
    (get_data defaultCfg "classe energetica b+ in zona" "u").1.energy ≠ PyVal.str "B+" ∧
    LogEvent.energyNotFound "u" ∈ (get_data defaultCfg "classe energetica b+ in zona" "u").2 ∧
    (get_data defaultCfg "energetica z9" "u").1.energy = PyVal.str defaultCfg.energy_not_found ∧
    LogEvent.energyNotFound "u" ∈ (get_data defaultCfg "energetica z9" "u").2 := by
  decide

/-! ## Claim C5 -/

theorem rat_floor_eq_int_floor (q : ℚ) : Rat.floor q = ⌊q⌋ := rfl

/-- The integer round-half-even computation agrees with the rational one. -/
theorem roundHalfEvenInt_eq (n d : Int) (hd : 0 < d) :
    roundHalfEvenInt n d = roundHalfEven ((n : ℚ) / (d : ℚ)) := by
  have hdq : (0 : ℚ) < (d : ℚ) := by exact_mod_cast hd
  have hdq0 : ((d : ℚ)) ≠ 0 := hdq.ne'
  have hfl : Rat.floor ((n : ℚ) / (d : ℚ)) = n / d := by
    obtain ⟨m, rfl⟩ := Int.eq_ofNat_of_zero_le hd.le
    rw [rat_floor_eq_int_floor]
    exact_mod_cast Rat.floor_intCast_div_natCast n m
  have h1 : (d : ℚ) * ((n / d : Int) : ℚ) + ((n % d : Int) : ℚ) = (n : ℚ) := by
    exact_mod_cast congrArg (fun z : Int => (z : ℚ)) (Int.ediv_add_emod n d)
  have hmod : (n : ℚ) / (d : ℚ) - ((n / d : Int) : ℚ) = ((n % d : Int) : ℚ) / (d : ℚ) := by
    rw [eq_div_iff hdq0, sub_mul, div_mul_cancel₀ _ hdq0]
    linear_combination (-1 : ℚ) * h1
  have hclt : ((n % d : Int) : ℚ) / (d : ℚ) < 1 / 2 ↔ 2 * (n % d) < d := by
    rw [div_lt_div_iff₀ hdq (by norm_num : (0:ℚ) < 2), one_mul, mul_comm]
    exact_mod_cast Iff.rfl
  have hcgt : 1 / 2 < ((n % d : Int) : ℚ) / (d : ℚ) ↔ d < 2 * (n % d) := by
    rw [div_lt_div_iff₀ (by norm_num : (0:ℚ) < 2) hdq, one_mul, mul_comm]
    exact_mod_cast Iff.rfl
  simp only [roundHalfEven, roundHalfEvenInt]
  rw [hfl, hmod]
  simp only [hclt, hcgt]

/-- The integer computation of `round(c / a, 1)` used by `ppaOf` agrees
with the rational-level `ratRound1` of the exact quotient. -/
theorem pyRound1Div_eq (c a : Int) (ha : a ≠ 0) :
    pyRound1Div c a = ratRound1 ((c : ℚ) / (a : ℚ)) := by
  have haq : ((a : ℚ)) ≠ 0 := Int.cast_ne_zero.mpr ha
  rcases ha.lt_or_lt with hneg | hpos
  · unfold pyRound1Div ratRound1
    rw [if_pos hneg, roundHalfEvenInt_eq _ _ (by omega : (0:Int) < -a), Rat.divInt_eq_div]
    have harg : ((10 * -c : Int) : ℚ) / ((-a : Int) : ℚ) = 10 * ((c : ℚ) / (a : ℚ)) := by
      push_cast
      field_simp
    rw [harg]
    norm_num
  · unfold pyRound1Div ratRound1
    rw [if_neg (by omega : ¬ a < 0), roundHalfEvenInt_eq _ _ hpos, Rat.divInt_eq_div]
    have harg : ((10 * c : Int) : ℚ) / ((a : Int) : ℚ) = 10 * ((c : ℚ) / (a : ℚ)) := by
      push_cast
      field_simp
    rw [harg]
    norm_num

theorem ppaOf_some (cfg : CrawlConfig) (cv av : PyVal) (c a : Int)
    (hc : pyToInt cv = Option.some c) (ha : pyToInt av = Option.some a) (h0 : a ≠ 0) :
    ppaOf cfg cv av = PyVal.pfloat (PyFloat.val (ratRound1 ((c : ℚ) / (a : ℚ)))) := by
  unfold ppaOf
  rw [hc, ha]
  simp only [if_neg h0]
  rw [pyRound1Div_eq c a h0]

theorem ppaOf_fail (cfg : CrawlConfig) (cv av : PyVal)
    (h : pyToInt cv = Option.none ∨ pyToInt av = Option.none ∨
      pyToInt av = Option.some 0) :
    ppaOf cfg cv av = PyVal.int cfg.invalid_price_per_area := by
  unfold ppaOf
  rcases h with h | h | h
  · rw [h]
  · rw [h]
    cases pyToInt cv <;> rfl
  · rw [h]
    cases hcv : pyToInt cv with
    | none => rfl
    | some c => simp

/-- C5 (counterexample): the claim says that when either side is a
sentinel, `price_per_area` is the invalid sentinel.  With the price
sentinel configured as the numeric float `999.0` (the parameter's declared
type is `float`), a page with area 50 and no cost pattern gets cost =
sentinel yet `price_per_area = round(999/50, 1) = 20.0`, not the invalid
sentinel: the code guards the division with `try/except` around `int(...)`
rather than testing for sentinels. -/
theorem c5_counterexample :
    (get_data { defaultCfg with price_not_found := PyFloat.val 999 }
        "superficie 50 m" "u").1.cost =
      PyVal.pfloat ({ defaultCfg with price_not_found := PyFloat.val 999 } :
        CrawlConfig).price_not_found ∧
    (get_data { defaultCfg with price_not_found := PyFloat.val 999 }
        "superficie 50 m" "u").1.price_per_area = PyVal.pfloat (PyFloat.val 20) ∧
    PyVal.pfloat (PyFloat.val 20) ≠
      PyVal.int ({ defaultCfg with price_not_found := PyFloat.val 999 } :
        CrawlConfig).invalid_price_per_area := by
  decide

/-- C5 (amended): `price_per_area` equals `round(cost / area, 1)` exactly
when the Python `int(...)` conversion succeeds on both the cost and area
field values and the area integer is nonzero; in every other case
(`None`, NaN, or non-numeric value on either side, or area zero) it equals
the configured invalid-price-per-area sentinel, and no exception
propagates.  Sentinels block the computation only when they fail `int(...)`
conversion — the default NaN price sentinel and `None` do, a numeric
sentinel does not. -/
theorem c5_price_per_area (cfg : CrawlConfig) (text url : String) :
    (∀ c a : Int, pyToInt (get_data cfg text url).1.cost = Option.some c →
      pyToInt (get_data cfg text url).1.area = Option.some a → a ≠ 0 →
      (get_data cfg text url).1.price_per_area =
        PyVal.pfloat (PyFloat.val (ratRound1 ((c : ℚ) / (a : ℚ))))) ∧
    ((pyToInt (get_data cfg text url).1.cost = Option.none ∨
      pyToInt (get_data cfg text url).1.area = Option.none ∨
      pyToInt (get_data cfg text url).1.area = Option.some 0) →
      (get_data cfg text url).1.price_per_area = PyVal.int cfg.invalid_price_per_area) := by
  constructor
  · intro c a hc ha h0
    rw [get_data_ppa]
    exact ppaOf_some cfg _ _ c a (by rw [← get_data_cost]; exact hc)
      (by rw [← get_data_area]; exact ha) h0
  · intro h
    rw [get_data_ppa]
    refine ppaOf_fail cfg _ _ ?_
    rcases h with h | h | h
    · exact Or.inl (by rw [← get_data_cost]; exact h)
    · exact Or.inr (Or.inl (by rw [← get_data_area]; exact h))
    · exact Or.inr (Or.inr (by rw [← get_data_area]; exact h))

/-- C5 witness: cost 150000 and area 50 give
`price_per_area = round(150000/50, 1) = 3000.0`. -/
theorem c5_witness :
    pyToInt (get_data defaultCfg "€ 150.000 superficie 50 m" "u").1.cost =
      Option.some 150000 ∧
    pyToInt (get_data defaultCfg "€ 150.000 superficie 50 m" "u").1.area =
      Option.some 50 ∧
    (get_data defaultCfg "€ 150.000 superficie 50 m" "u").1.price_per_area =
      PyVal.pfloat (PyFloat.val (ratRound1 ((150000 : Int) / ((50 : Int) : ℚ)))) ∧
    (get_data defaultCfg "€ 150.000 superficie 50 m" "u").1.price_per_area =
      PyVal.pfloat (PyFloat.val 3000) := by
  refine ⟨by decide, by decide, ?_, by decide⟩
  exact (c5_price_per_area defaultCfg "€ 150.000 superficie 50 m" "u").1 150000 50
    (by decide) (by decide) (by decide)

/-! ## Claim C6 -/

/-- C6 (counterexample): the claim says that on a timeout (hence empty page
text) every field of the record resolves to its sentinel.  On empty text
the floor field is Python `None`, which is not the configured
`floor_not_found` sentinel. -/
theorem c6_counterexample :
    (get_data defaultCfg "" "u").1.floor ≠ PyVal.int defaultCfg.floor_not_found ∧
    (get_data defaultCfg "" "u").1.floor = PyVal.none := by
  decide

/-- C6 (amended): extraction is total — for every configuration whose
price sentinel is the default NaN, a fetch timeout yields empty page text
and the resulting record carries the configured sentinel in every field
except floor, which is Python `None` (no pattern matches on empty text);
no failure of a single listing aborts the crawl. -/
theorem c6_timeout_record (cfg : CrawlConfig) (fetch : String → Option String) (url : String)
    (htimeout : fetch url = Option.none)
    (hnan : cfg.price_not_found = PyFloat.nan) :
    pageTextOf fetch url = "" ∧
    (get_data cfg (pageTextOf fetch url) url).1.cost = PyVal.pfloat cfg.price_not_found ∧
    (get_data cfg (pageTextOf fetch url) url).1.area = PyVal.int cfg.area_not_found ∧
    (get_data cfg (pageTextOf fetch url) url).1.energy = PyVal.str cfg.energy_not_found ∧
    (get_data cfg (pageTextOf fetch url) url).1.posto_auto = PyVal.int cfg.car_not_found ∧
    (get_data cfg (pageTextOf fetch url) url).1.price_per_area =
      PyVal.int cfg.invalid_price_per_area ∧
    (get_data cfg (pageTextOf fetch url) url).1.floor = PyVal.none ∧
    (get_data cfg (pageTextOf fetch url) url).1.ultimo = false ∧
    (get_data cfg (pageTextOf fetch url) url).1.url = url := by
  have ht : pageTextOf fetch url = "" := by
    unfold pageTextOf
    rw [htimeout]
  obtain ⟨mhc, bap, anf, pnf, fnf, cnf, enf, ippa⟩ := cfg
  simp only at hnan
  subst hnan
  rw [ht]
  exact ⟨rfl, rfl, rfl, rfl, rfl, rfl, rfl, rfl, rfl⟩

/-- C6 witness: a fetch that always times out, with the default
configuration. -/
theorem c6_witness :
    (fun _ : String => (Option.none : Option String)) "u" = Option.none ∧
    defaultCfg.price_not_found = PyFloat.nan ∧
    (pageTextOf (fun _ => Option.none) "u" = "" ∧
      (get_data defaultCfg (pageTextOf (fun _ => Option.none) "u") "u").1.cost =
        PyVal.pfloat defaultCfg.price_not_found ∧
      (get_data defaultCfg (pageTextOf (fun _ => Option.none) "u") "u").1.area =
        PyVal.int defaultCfg.area_not_found ∧
      (get_data defaultCfg (pageTextOf (fun _ => Option.none) "u") "u").1.energy =
        PyVal.str defaultCfg.energy_not_found ∧
      (get_data defaultCfg (pageTextOf (fun _ => Option.none) "u") "u").1.posto_auto =
        PyVal.int defaultCfg.car_not_found ∧
      (get_data defaultCfg (pageTextOf (fun _ => Option.none) "u") "u").1.price_per_area =
        PyVal.int defaultCfg.invalid_price_per_area ∧
      (get_data defaultCfg (pageTextOf (fun _ => Option.none) "u") "u").1.floor = PyVal.none ∧
      (get_data defaultCfg (pageTextOf (fun _ => Option.none) "u") "u").1.ultimo = false ∧
      (get_data defaultCfg (pageTextOf (fun _ => Option.none) "u") "u").1.url = "u") :=
  ⟨rfl, rfl, c6_timeout_record defaultCfg (fun _ => Option.none) "u" rfl rfl⟩

/-! ## Claim C7 -/

/-- C7 (confirmed): for every page text containing the ground-floor phrase
`"piano terra"` (in the lower-cased text `_get_data` works on), the floor
field of the returned record is the integer 1, regardless of any numeric
floor pattern match, and the top-floor flag `ultimo` is exactly the
independent substring test for `"ultimo"`, unaffected by the override. -/
theorem c7_ground_floor (cfg : CrawlConfig) (text url : String)
    (h : hasSub "piano terra".toList (text.toList.map Char.toLower) = true) :
    (get_data cfg text url).1.floor = PyVal.int 1 ∧
    (get_data cfg text url).1.ultimo =
      hasSub "ultimo".toList (text.toList.map Char.toLower) := by
  constructor
  · rw [get_data_floor]
    exact floorOf_eq_ground _ h
  · rw [get_data_ultimo]

/-- C7 witness: a text containing both a numeric floor pattern
(`"piano 3"`) and the ground-floor phrase still gets floor 1. -/
theorem c7_witness :
    hasSub "piano terra".toList
      ("al piano terra ultimo piano 3".toList.map Char.toLower) = true ∧
    (get_data defaultCfg "al piano terra ultimo piano 3" "u").1.floor = PyVal.int 1 ∧
    (get_data defaultCfg "al piano terra ultimo piano 3" "u").1.ultimo =
      hasSub "ultimo".toList ("al piano terra ultimo piano 3".toList.map Char.toLower) :=
  ⟨by decide, c7_ground_floor defaultCfg "al piano terra ultimo piano 3" "u" (by decide)⟩

/-! ## Claim C9 -/

/-- C9 (confirmed): for every configuration, fetch behaviour and list of
discovered URLs, the crawl produces exactly one record per discovered URL,
in order — so no URL is missing, no duplicate record is introduced, and
each record's `url` field is the URL it was extracted from
(`executor.map` returns one result per input, in input order). -/
theorem c9_one_record_per_url (cfg : CrawlConfig) (fetch : String → Option String)
    (urls : List String) :
    (find_all_houses cfg fetch urls).map House.url = urls := by
  unfold find_all_houses
  induction urls with
  | nil => rfl
  | cons u us ih =>
    simp only [List.map_cons]
    exact congrArg (List.cons u) ih

/-! ## Claim C10 -/

/-- C10 (confirmed): when no floor pattern matches and the ground-floor
phrase is absent, the floor field of the record is Python `None`; moreover
`_get_data` never reads `floor_not_found`, so the entire record (floor
field included) is independent of that configuration value. -/
theorem c10_floor_not_found_unused (cfg : CrawlConfig) (text url : String)
    (h1 : extract_pattern floorPats (text.toList.map Char.toLower) = Option.none)
    (h2 : hasSub "piano terra".toList (text.toList.map Char.toLower) = false) :
    (get_data cfg text url).1.floor = PyVal.none ∧
    ∀ v : Int, get_data { cfg with floor_not_found := v } text url = get_data cfg text url := by
  constructor
  · rw [get_data_floor]
    exact (floorOf_none_iff _).mpr ⟨h1, h2⟩
  · intro v
    cases cfg
    rfl

/-- C10 witness: on empty page text no floor pattern matches and no
ground-floor phrase occurs, the floor field is `None`, and changing
`floor_not_found` to 7 leaves the record unchanged. -/
theorem c10_witness :
    extract_pattern floorPats ("".toList.map Char.toLower) = Option.none ∧
    hasSub "piano terra".toList ("".toList.map Char.toLower) = false ∧
    (get_data defaultCfg "" "u").1.floor = PyVal.none ∧
    get_data { defaultCfg with floor_not_found := 7 } "" "u" = get_data defaultCfg "" "u" :=
  ⟨by decide, by decide,
   (c10_floor_not_found_unused defaultCfg "" "u" (by decide) (by decide)).1,
   (c10_floor_not_found_unused defaultCfg "" "u" (by decide) (by decide)).2 7⟩

end Immobiscraper
